import Mathlib

/-!
# Verification of rustyclaw gateway core against its specification

Shallow embedding of the rustyclaw source (Rust) in Lean 4. Strings that are
compared byte-wise are modelled as `List Nat` (their UTF-8 bytes); other
strings are Lean `String`s. `HashMap`s are modelled as association lists whose
order stands in for the map's iteration order. Fallible operations return
`Option`/`Except`.
-/

namespace Rustyclaw

/-! ## src/security/secret_equal.rs -/

/-- Model of `subtle::ConstantTimeEq::ct_eq` on two equal-length slices: the
comparison folds over every position, accumulating equality without an early
exit. Functionally it is pointwise equality of the zipped elements. The UTF-8
byte sequence of a Rust `&str` is modelled by the string's character
sequence, an equivalent injective encoding. -/
def ct_eq (a b : List Char) : Bool :=
  (a.zip b).foldl (fun acc p => acc && (p.1 == p.2)) true

/-- Model of `safe_equal_secret` from `src/security/secret_equal.rs`: returns `false`
when either side is `None`, `false` when lengths differ, otherwise the
constant-time comparison of the contents. -/
def safe_equal_secret (provided expected : Option String) : Bool :=
  match provided, expected with
  | some p, some e =>
    if p.data.length != e.data.length then false
    else ct_eq p.data e.data
  | _, _ => false

/-- Model of `verify_token` from `src/gateway/auth.rs`: wraps both arguments in `Some`
and calls `safe_equal_secret`. -/
def verify_token (provided expected : String) : Bool :=
  safe_equal_secret (some provided) (some expected)

/-- Rust's `str::strip_prefix`: `some` of the remainder when `p` is a prefix
of `s`, else `none`. Implemented on the character lists so that it evaluates
by kernel reduction. -/
def dropPre (s p : String) : Option String :=
  if p.data.isPrefixOf s.data then some ⟨s.data.drop p.data.length⟩ else none

/-- Split a character list at every occurrence of `c` (Rust's
`str::split(char)`): the empty input yields one empty piece, as in Rust. -/
def splitChar (c : Char) : List Char → List (List Char)
  | [] => [[]]
  | x :: xs =>
    if x == c then [] :: splitChar c xs
    else
      match splitChar c xs with
      | [] => [[x]]
      | h :: t => (x :: h) :: t

/-- Model of `extract_bearer_token` from `src/gateway/auth.rs`: strip `"Bearer "`,
falling back to `"bearer "`. -/
def extract_bearer_token (auth_header : String) : Option String :=
  match dropPre auth_header "Bearer " with
  | some t => some t
  | none => dropPre auth_header "bearer "

/-- The query-parameter fallback of `auth_middleware`: split the query string
on `'&'` and accept if any `token=`-prefixed parameter verifies. (The Rust
loop returns `Ok` on the first verifying parameter; reaching the end yields
401, which is exactly an `any` over the parameters.) -/
def queryTokenCheck (expected : String) (query : Option String) : Bool :=
  match query with
  | none => false
  | some q =>
    ((splitChar '&' q.data).map (fun l => (⟨l⟩ : String))).any (fun param =>
      match dropPre param "token=" with
      | some token => verify_token token expected
      | none => false)

/-- Model of `auth_middleware` from `src/gateway/auth.rs`, as a pure decision on the
request parts it inspects: the configured token, the request path, the
`authorization` header (when present and readable as a string), and the query
string. Returns `true` when the request is allowed through and `false` for
the 401 rejection. -/
def auth_middleware (auth_token : Option String) (path : String)
    (auth_header : Option String) (query : Option String) : Bool :=
  match auth_token with
  | none => true
  | some expected =>
    if path = "/health" ∨ path = "/v1/health" then true
    else
      match auth_header with
      | some header =>
        match extract_bearer_token header with
        | some token => verify_token token expected
        | none => false
      | none => queryTokenCheck expected query

/-! ## src/tools/mod.rs — tool policy -/

/-- The policy-relevant fields of `ToolRegistry` (the `tools` map itself does
not participate in `is_allowed`). -/
structure ToolRegistry where
  deny_list : List String
  allow_list : List String

/-- Model of `ToolRegistry::is_allowed` from `src/tools/mod.rs`: a name on the deny
list is allowed exactly when it is also on the allow list; any other name is
allowed. -/
def ToolRegistry.is_allowed (r : ToolRegistry) (name : String) : Bool :=
  if r.deny_list.contains name then
    r.allow_list.contains name
  else
    true

/-! ## src/session/mod.rs — session store

`DateTime<Utc>` timestamps are modelled as `Nat`. The `HashMap` of sessions is
an association list whose order stands in for the map's iteration order.
`Utc::now()` and `Uuid::new_v4()` are nondeterministic inputs of
`Session::new`, so the model takes them as explicit parameters. The fields
`messages`, `system_prompt`, `metadata` and `context_files` do not affect any
store operation embedded here and are omitted from the record. -/

structure Session where
  id : String
  key : String
  agent_id : String
  channel : String
  created_at : Nat
  updated_at : Nat
  deriving Repr, DecidableEq

/-- Model of `Session::new` from `src/session/mod.rs`: fresh id, both timestamps set to
`now`. -/
def Session.new (key agent_id channel : String) (fresh_id : String) (now : Nat) :
    Session :=
  { id := fresh_id, key := key, agent_id := agent_id, channel := channel,
    created_at := now, updated_at := now }

structure SessionManager where
  sessions : List (String × Session)
  max_sessions : Nat
  deriving Repr, DecidableEq

/-- Model of `sessions.iter().min_by_key(|(_, s)| s.updated_at)`: the first
entry (in iteration order) whose `updated_at` is minimal, as Rust's
`min_by_key` keeps the earliest of equally minimal elements. -/
def minByUpdated (l : List (String × Session)) : Option (String × Session) :=
  match l with
  | [] => none
  | p :: rest =>
    some (rest.foldl (fun acc q => if q.2.updated_at < acc.2.updated_at then q else acc) p)

/-- Model of `HashMap::insert`: replace the entry when the key is present, otherwise
add a new entry. -/
def insertAssoc {β : Type} (l : List (String × β)) (k : String) (s : β) :
    List (String × β) :=
  if l.any (fun p => p.1 == k) then
    l.map (fun p => if p.1 == k then (k, s) else p)
  else
    l ++ [(k, s)]

/-- The eviction block of `get_or_create`: when `sessions.len() >=
max_sessions`, remove the entry found by `min_by_key` on `updated_at`
(`HashMap::remove` of that key). -/
def evictIfFull (sessions : List (String × Session)) (max_sessions : Nat) :
    List (String × Session) :=
  if max_sessions ≤ sessions.length then
    match minByUpdated sessions with
    | some oldest => sessions.eraseP (fun p => p.1 == oldest.1)
    | none => sessions
  else sessions

/-- Model of `SessionManager::get_or_create` from `src/session/mod.rs`: return the
existing session for `key` if present; otherwise construct a new session,
evict the entry with the oldest `updated_at` when the store is at capacity
(`sessions.len() >= max_sessions`), and insert the new session. Returns the
session together with the updated store. -/
def getOrCreate (mgr : SessionManager) (key agent_id channel : String)
    (fresh_id : String) (now : Nat) : Session × SessionManager :=
  match List.lookup key mgr.sessions with
  | some session => (session, mgr)
  | none =>
    (Session.new key agent_id channel fresh_id now,
     { mgr with sessions :=
         (insertAssoc (evictIfFull mgr.sessions mgr.max_sessions) key
           (Session.new key agent_id channel fresh_id now)) })

/-! ## serde_json values

`serde_json::Value` restricted to what the embedded code inspects; numbers
are integers (`as_u64` accessors are the only numeric reads performed). -/

inductive Json where
  | null
  | bool (b : Bool)
  | num (n : Int)
  | str (s : String)
  | arr (items : List Json)
  | obj (fields : List (String × Json))

/-- serde's `Value::get`: `none` on a non-object or a missing key. -/
def jsonGet (j : Json) (k : String) : Option Json :=
  match j with
  | .obj fields => (fields.find? (fun p => p.1 == k)).map Prod.snd
  | _ => none

/-- serde's `Value` indexing `v[k]`: `Null` on a non-object or missing key. -/
def Json.getField (j : Json) (k : String) : Json :=
  match jsonGet j k with
  | some v => v
  | none => .null

def Json.as_str : Json → Option String
  | .str s => some s
  | _ => none

/-- Model of `Value::as_u64`: a numeric value that is a non-negative integer fitting
in `u64`. -/
def Json.as_u64 : Json → Option Nat
  | .num n => if 0 ≤ n ∧ n < 18446744073709551616 then some n.toNat else none
  | _ => none

def Json.as_array : Json → Option (List Json)
  | .arr items => some items
  | _ => none

/-- Whether a JSON object carries a key (used to state that a serialized
response has no `id` member). -/
def Json.hasKey : Json → String → Bool
  | .obj fields, k => fields.any (fun p => p.1 == k)
  | _, _ => false

/-! ## src/tools/executor.rs

The filesystem is modelled as an association list from (resolved) path to
file content; `tokio::fs::read_to_string` is a lookup and `tokio::fs::write`
an insert-or-replace that always succeeds (the source's write-error branch is
an I/O condition outside the model). Tool inputs are `Json` values, extracted
exactly as the source does with `get`/`or_else`/`as_str`/`as_u64`. -/

structure ToolResult where
  content : String
  is_error : Bool
  metadata : List (String × Json)

/-- Model of `input.get(k1).or_else(|| input.get(k2)).and_then(|v| v.as_str()).unwrap_or("")`:
the fallback key is consulted only when the first key is missing. -/
def getStrOr2 (input : Json) (k1 k2 : String) : String :=
  match ((jsonGet input k1).orElse (fun _ => jsonGet input k2)).bind Json.as_str with
  | some s => s
  | none => ""

/-- Model of `resolve_path` from `src/tools/executor.rs`: absolute paths (leading
`/`, Unix `Path::is_absolute`) pass through; relative paths are joined onto
the workspace root. -/
def resolve_path (path workspace_dir : String) : String :=
  if path.data.head? = some '/' then path
  else if workspace_dir.data.getLast? = some '/' then workspace_dir ++ path
  else workspace_dir ++ "/" ++ path

/-- Strip one trailing `'\r'` (the `\r\n` line-ending handling of Rust's
`str::lines`). -/
def stripCR (l : List Char) : List Char :=
  if l.getLast? = some '\r' then l.dropLast else l

/-- Rust's `str::lines()`: split on `'\n'`, strip a trailing `'\r'` from each
terminated line, and do not produce a final empty line for a trailing
newline. The last segment, when unterminated, keeps a trailing `'\r'`. -/
def rustLines (s : String) : List String :=
  if s.data.isEmpty then []
  else
    let parts := splitChar '\n' s.data
    let init := parts.dropLast.map stripCR
    let all :=
      if s.data.getLast? = some '\n' then init
      else init ++ [(parts.getLast?.getD [])]
    all.map (fun l => (⟨l⟩ : String))

/-- Model of `Vec::join("\n")` on the selected lines. -/
def joinNL (l : List String) : String :=
  ⟨List.intercalate ['\n'] (l.map String.data)⟩

/-- Model of `execute_read` from `src/tools/executor.rs`, with the filesystem
passed explicitly. The window arithmetic happens in `usize`: the sum
`start + limit` wraps modulo `2^64` (release profile), and when the wrapped
end index falls below `start` the slice `lines[start..end]` panics — on
exactly the same inputs a debug profile panics at the addition itself, since
the wrapped sum is below `start` precisely when the addition overflows. A
panic is modelled as `none`; every non-panicking path returns `some` of the
`ToolResult`. -/
def execute_read (input : Json) (workspace_dir : String)
    (fs : List (String × String)) : Option ToolResult :=
  let file_path := getStrOr2 input "file_path" "path"
  if file_path.data.isEmpty then
    some { content := "file_path is required", is_error := true, metadata := [] }
  else
    let resolved := resolve_path file_path workspace_dir
    let offset := ((jsonGet input "offset").bind Json.as_u64).getD 1
    let limit := ((jsonGet input "limit").bind Json.as_u64).getD 2000
    match List.lookup resolved fs with
    | some content =>
      let lines := rustLines content
      let start := min (offset - 1) lines.length
      let stop := min ((start + limit) % 18446744073709551616) lines.length
      if stop < start then none
      else
        let selected := joinNL ((lines.drop start).take (stop - start))
        some { content := selected, is_error := false,
               metadata := [("total_lines", Json.num lines.length),
                            ("returned_lines", Json.num (stop - start))] }
    | none =>
      some { content := "Error reading " ++ file_path ++ ": No such file",
             is_error := true, metadata := [] }

/-- Substring containment (Rust's `str::contains(&str)`). -/
def containsSub (h n : List Char) : Bool :=
  match h with
  | [] => n.isPrefixOf ([] : List Char)
  | c :: t => n.isPrefixOf (c :: t) || containsSub t n

/-- Rust's `str::replacen(old, new, 1)`: replace the first occurrence of
`old` (for the non-empty `old` reaching this code path). -/
def replaceFirst (s old new : List Char) : List Char :=
  match s with
  | [] => []
  | c :: rest =>
    if old.isPrefixOf (c :: rest) then new ++ (c :: rest).drop old.length
    else c :: replaceFirst rest old new

/-- Model of `execute_edit` from `src/tools/executor.rs`: returns the `ToolResult`
together with the filesystem after the call. -/
def execute_edit (input : Json) (workspace_dir : String)
    (fs : List (String × String)) : ToolResult × List (String × String) :=
  let file_path := getStrOr2 input "file_path" "path"
  let old_string := getStrOr2 input "old_string" "oldText"
  let new_string := getStrOr2 input "new_string" "newText"
  if file_path.data.isEmpty || old_string.data.isEmpty then
    ({ content := "file_path and old_string are required",
       is_error := true, metadata := [] }, fs)
  else
    let resolved := resolve_path file_path workspace_dir
    match List.lookup resolved fs with
    | some content =>
      if !(containsSub content.data old_string.data) then
        ({ content := "old_string not found in file",
           is_error := true, metadata := [] }, fs)
      else
        ({ content := "Successfully edited " ++ file_path,
           is_error := false, metadata := [] },
         insertAssoc fs resolved
           (⟨replaceFirst content.data old_string.data new_string.data⟩ : String))
    | none =>
      ({ content := "Error reading " ++ file_path ++ ": No such file",
         is_error := true, metadata := [] }, fs)

/-! ## src/provider/types.rs -/

structure Usage where
  input_tokens : Nat
  output_tokens : Nat
  cache_creation_input_tokens : Nat
  cache_read_input_tokens : Nat

inductive ContentBlock where
  | Text (text : String)
  | Image (source_type media_type data : String)
  | ToolUse (id name : String) (input : Json)
  | ToolResultBlock (tool_use_id : String) (content : String)
      (is_error : Option Bool)
  | Thinking (thinking : String)

structure CompletionResponse where
  id : String
  model : String
  content : List ContentBlock
  stop_reason : Option String
  usage : Usage

inductive ProviderError where
  | ApiError (status : Nat) (message : String)
  | AuthError (message : String)
  | RateLimited (retry_after_ms : Nat)
  | NetworkError (message : String)
  | InvalidRequest (message : String)
  | Other (message : String)

inductive ContentDelta where
  | TextDelta (text : String)
  | InputJsonDelta (partial_json : String)
  | ThinkingDelta (thinking : String)

inductive StreamEvent where
  | MessageStart (id model : String)
  | ContentBlockStart (index : Nat) (content_block : ContentBlock)
  | ContentBlockDelta (index : Nat) (delta : ContentDelta)
  | ContentBlockStop (index : Nat)
  | MessageDelta (stop_reason : Option String) (usage : Option Usage)
  | MessageStop
  | Ping
  | Error (message : String)

/-! ## src/provider/anthropic.rs — non-streaming `complete` -/

/-- Rust's `str::parse::<u64>`: optional leading `'+'`, at least one decimal
digit, value below `2^64`. -/
def parseU64 (s : String) : Option Nat :=
  let core := match s.data with
    | '+' :: rest => rest
    | l => l
  if core.isEmpty then none
  else if core.all (fun c => 48 ≤ c.toNat && c.toNat ≤ 57) then
    let v := core.foldl (fun acc c => acc * 10 + (c.toNat - 48)) 0
    if v < 18446744073709551616 then some v else none
  else none

/-- Model of `AnthropicProvider::parse_response`: builds a `CompletionResponse` from
the response JSON with `unwrap_or` defaults everywhere; it never fails. -/
def parse_response (body : Json) : Except ProviderError CompletionResponse :=
  let id := ((body.getField "id").as_str).getD ""
  let model := ((body.getField "model").as_str).getD ""
  let stop_reason := (body.getField "stop_reason").as_str
  let content :=
    match (body.getField "content").as_array with
    | some arr =>
      arr.filterMap (fun block =>
        match (block.getField "type").as_str with
        | some "text" =>
          some (ContentBlock.Text (((block.getField "text").as_str).getD ""))
        | some "tool_use" =>
          some (ContentBlock.ToolUse (((block.getField "id").as_str).getD "")
            (((block.getField "name").as_str).getD "")
            (block.getField "input"))
        | some "thinking" =>
          some (ContentBlock.Thinking
            (((block.getField "thinking").as_str).getD ""))
        | _ => none)
    | none => []
  let usage : Usage :=
    { input_tokens :=
        (((body.getField "usage").getField "input_tokens").as_u64).getD 0,
      output_tokens :=
        (((body.getField "usage").getField "output_tokens").as_u64).getD 0,
      cache_creation_input_tokens :=
        (((body.getField "usage").getField
          "cache_creation_input_tokens").as_u64).getD 0,
      cache_read_input_tokens :=
        (((body.getField "usage").getField
          "cache_read_input_tokens").as_u64).getD 0 }
  .ok { id := id, model := model, content := content,
        stop_reason := stop_reason, usage := usage }

/-- The status-classification portion of `AnthropicProvider::complete`
(everything after the HTTP send, which is the external boundary of the
model): `status` is the numeric HTTP status, `retry_after_header` the
`retry-after` header when present and readable, `text` the response body
text, and `body_json` the result of parsing the body as JSON (`none` when
that parse fails). The `u64` multiplication `retry_after * 1000` wraps modulo
`2^64` (release-profile semantics). -/
def complete_classify (status : Nat) (retry_after_header : Option String)
    (text : String) (body_json : Option Json) :
    Except ProviderError CompletionResponse :=
  if status == 401 || status == 403 then
    .error (.AuthError text)
  else if status == 429 then
    .error (.RateLimited
      ((((retry_after_header.bind parseU64).getD 60) * 1000)
        % 18446744073709551616))
  else if 400 ≤ status then
    .error (.ApiError status text)
  else
    match body_json with
    | some j => parse_response j
    | none => .error (.Other "Failed to parse response")

/-! ## src/provider/anthropic.rs — streaming translator

The spawned stream task splits the buffered bytes into complete lines and
processes one line at a time, threading `current_event_type`. The embedding
models that inner per-line loop. Parsing a data payload as JSON
(`serde_json::from_str`) is external and passed in as a function; `str::trim`
is modelled over ASCII whitespace (the whitespace appearing in the SSE wire
format). -/

def trimChars (l : List Char) : List Char :=
  ((l.dropWhile Char.isWhitespace).reverse.dropWhile Char.isWhitespace).reverse

def trimStr (s : String) : String := ⟨trimChars s.data⟩

/-- The big `match current_event_type.as_str()` of the stream task, turning
one parsed `data:` JSON payload into at most one `StreamEvent`; unrecognized
event types yield `none` (silently dropped). -/
def translateEvent (current_event_type : String) (json : Json) : Option StreamEvent :=
  match current_event_type with
  | "message_start" =>
    some (.MessageStart
      ((((json.getField "message").getField "id").as_str).getD "")
      ((((json.getField "message").getField "model").as_str).getD ""))
  | "content_block_start" =>
    let index := ((json.getField "index").as_u64).getD 0
    let cb := json.getField "content_block"
    let block_type := ((cb.getField "type").as_str).getD "text"
    let content_block :=
      match block_type with
      | "text" => ContentBlock.Text (((cb.getField "text").as_str).getD "")
      | "tool_use" => ContentBlock.ToolUse
          (((cb.getField "id").as_str).getD "")
          (((cb.getField "name").as_str).getD "") (Json.obj [])
      | "thinking" => ContentBlock.Thinking ""
      | _ => ContentBlock.Text ""
    some (.ContentBlockStart index content_block)
  | "content_block_delta" =>
    let index := ((json.getField "index").as_u64).getD 0
    let delta := json.getField "delta"
    let delta_type := ((delta.getField "type").as_str).getD ""
    let content_delta :=
      match delta_type with
      | "text_delta" =>
        ContentDelta.TextDelta (((delta.getField "text").as_str).getD "")
      | "input_json_delta" =>
        ContentDelta.InputJsonDelta
          (((delta.getField "partial_json").as_str).getD "")
      | "thinking_delta" =>
        ContentDelta.ThinkingDelta
          (((delta.getField "thinking").as_str).getD "")
      | _ => ContentDelta.TextDelta ""
    some (.ContentBlockDelta index content_delta)
  | "content_block_stop" =>
    some (.ContentBlockStop (((json.getField "index").as_u64).getD 0))
  | "message_delta" =>
    some (.MessageDelta
      (((json.getField "delta").getField "stop_reason").as_str)
      ((jsonGet json "usage").map (fun u =>
        { input_tokens := ((u.getField "input_tokens").as_u64).getD 0,
          output_tokens := ((u.getField "output_tokens").as_u64).getD 0,
          cache_creation_input_tokens := 0,
          cache_read_input_tokens := 0 })))
  | "message_stop" => some .MessageStop
  | "ping" => some .Ping
  | "error" =>
    some (.Error
      ((((json.getField "error").getField "message").as_str).getD
        "Unknown error"))
  | _ => none

/-- Outcome of processing one complete line of the stream body: either carry
on with a (possibly updated) `current_event_type` after emitting the given
events, or terminate the stream (the `return` on `data: [DONE]`). -/
inductive StepOut where
  | cont (etype : String) (events : List StreamEvent)
  | done (events : List StreamEvent)

/-- Case analysis on a `StepOut` (the loop either continues or returns). -/
def StepOut.elim {α : Type} (s : StepOut)
    (fCont : String → List StreamEvent → α)
    (fDone : List StreamEvent → α) : α :=
  match s with
  | .cont e es => fCont e es
  | .done es => fDone es

/-- One iteration of the stream task's line loop (the body handling
`buffer[..newline_pos].trim()`). -/
def processLine (parse : String → Option Json) (etype : String)
    (rawLine : String) : StepOut :=
  let line := trimStr rawLine
  if line.data.isEmpty then .cont etype []
  else
    match dropPre line "event: " with
    | some event_type => .cont (trimStr event_type) []
    | none =>
      match dropPre line "data: " with
      | some d =>
        let data := trimStr d
        if data = "[DONE]" then .done [.MessageStop]
        else
          match parse data with
          | some json =>
            match translateEvent etype json with
            | some ev => .cont etype [ev]
            | none => .cont etype []
          | none => .cont etype []
      | none => .cont etype []

/-- The stream task's loop over complete lines: events accumulate in emission
order; a `.done` step ends the stream, dropping all later lines. -/
def processLines (parse : String → Option Json) (etype : String) :
    List String → List StreamEvent
  | [] => []
  | l :: rest =>
    StepOut.elim (processLine parse etype l)
      (fun etype' evs => evs ++ processLines parse etype' rest)
      (fun evs => evs)

/-- A line whose trimmed form is a `data:` record with payload `[DONE]` —
the only line shape on which the loop terminates the stream. -/
def isDoneLine (rawLine : String) : Bool :=
  match dropPre (trimStr rawLine) "data: " with
  | some d => trimStr d == "[DONE]"
  | none => false

/-! ## src/gateway/ws.rs — WebSocket method dispatch

`WsMessage` mirrors the serde struct; serialization skips `id`, `params`,
`result` and `error` when `None` (`skip_serializing_if`), while `method` has
no skip attribute and serializes as JSON `null` when `None`. The gateway
state is modelled by the data the five method handlers read; parsing a text
frame (`serde_json::from_str`) is external, so the frame handler takes the
parse outcome. -/

structure WsMessage where
  id : Option String
  method : Option String
  params : Option Json
  result : Option Json
  error : Option Json

structure GatewayStateModel where
  version : String
  uptime_secs : Nat
  session_keys : List String
  primary_model : String
  workspace_dir : String
  registry : ToolRegistry
  tool_names : List String

/-- Model of `handle_ws_method` from `src/gateway/ws.rs`: dispatch on the method name
(a Rust `match` on `&str`, i.e. sequential equality tests); unknown methods
return the `-32601` error object with the method name in the message, the
request id echoed, and no `result`; known methods return a `result` and no
`error`. -/
def handle_ws_method (state : GatewayStateModel) (msg : WsMessage) :
    Option WsMessage :=
  let method := msg.method.getD ""
  if method = "gateway.status" then
    some { id := msg.id, method := none, params := none,
           result := some (Json.obj
             [("status", Json.str "running"),
              ("version", Json.str state.version),
              ("uptime", Json.num state.uptime_secs),
              ("sessions", Json.num state.session_keys.length)]),
           error := none }
  else if method = "gateway.health" then
    some { id := msg.id, method := none, params := none,
           result := some (Json.obj [("status", Json.str "ok")]),
           error := none }
  else if method = "sessions.list" then
    some { id := msg.id, method := none, params := none,
           result := some (Json.obj
             [("sessions", Json.arr (state.session_keys.map Json.str))]),
           error := none }
  else if method = "config.get" then
    some { id := msg.id, method := none, params := none,
           result := some (Json.obj
             [("model", Json.str state.primary_model),
              ("workspace", Json.str state.workspace_dir)]),
           error := none }
  else if method = "tools.list" then
    some { id := msg.id, method := none, params := none,
           result := some (Json.obj
             [("tools", Json.arr
               ((state.tool_names.filter
                 (fun n => state.registry.is_allowed n)).map Json.str))]),
           error := none }
  else
    some { id := msg.id, method := none, params := none, result := none,
           error := some (Json.obj
             [("code", Json.num (-32601)),
              ("message", Json.str ("Method not found: " ++ method))]) }

/-- The five method names the dispatch table recognizes. -/
def knownMethods : List String :=
  ["gateway.status", "gateway.health", "sessions.list", "config.get",
   "tools.list"]

/-- serde serialization of `WsMessage`: optional fields with
`skip_serializing_if` are omitted when `None`; `method` (no skip attribute)
is always present, as `null` when `None`. -/
def wsMessageToJson (m : WsMessage) : Json :=
  Json.obj
    ((match m.id with | some i => [("id", Json.str i)] | none => [])
      ++ [("method", match m.method with
                     | some s => Json.str s
                     | none => Json.null)]
      ++ (match m.params with | some p => [("params", p)] | none => [])
      ++ (match m.result with | some r => [("result", r)] | none => [])
      ++ (match m.error with | some e => [("error", e)] | none => []))

/-- The `Message::Text` arm of `handle_ws_connection`: a frame that parses as
a `WsMessage` is dispatched and the response serialized; a frame that fails
to parse is answered with the fixed `-32700` object, which carries no `id`
(the parse failed before an id could be read). Returns the JSON sent back,
when any. -/
def handle_text_frame (state : GatewayStateModel)
    (parsed : Option WsMessage) : Option Json :=
  match parsed with
  | some ws_msg => (handle_ws_method state ws_msg).map wsMessageToJson
  | none =>
    some (Json.obj [("error", Json.obj
      [("code", Json.num (-32700)),
       ("message", Json.str "Parse error")])])

/-! ## Helper lemmas -/

theorem foldl_min_mem (f : α → Nat) (p : α) (l : List α) :
    l.foldl (fun acc q => if f q < f acc then q else acc) p ∈ p :: l := by
  induction l generalizing p with
  | nil => simp
  | cons x xs ih =>
    simp only [List.foldl_cons]
    by_cases hx : f x < f p
    · rw [if_pos hx]
      exact List.mem_cons_of_mem p (ih x)
    · rw [if_neg hx]
      rcases List.mem_cons.mp (ih p) with h1 | h1
      · rw [h1]; exact List.mem_cons_self _ _
      · exact List.mem_cons_of_mem _ (List.mem_cons_of_mem _ h1)

theorem foldl_min_le (f : α → Nat) (p : α) (l : List α) :
    ∀ q ∈ p :: l, f (l.foldl (fun acc q => if f q < f acc then q else acc) p) ≤ f q := by
  induction l generalizing p with
  | nil => intro q hq; simp at hq; subst hq; simp
  | cons x xs ih =>
    intro q hq
    simp only [List.foldl_cons]
    have hbase : f (if f x < f p then x else p) ≤ f p ∧ f (if f x < f p then x else p) ≤ f x := by
      by_cases hx : f x < f p
      · rw [if_pos hx]; exact ⟨Nat.le_of_lt hx, Nat.le_refl _⟩
      · rw [if_neg hx]; exact ⟨Nat.le_refl _, Nat.le_of_not_lt hx⟩
    rcases List.mem_cons.mp hq with h1 | h1
    · subst h1
      exact Nat.le_trans (ih _ _ (List.mem_cons_self _ _)) hbase.1
    · rcases List.mem_cons.mp h1 with h2 | h2
      · subst h2
        exact Nat.le_trans (ih _ _ (List.mem_cons_self _ _)) hbase.2
      · exact ih _ q (List.mem_cons_of_mem _ h2)

theorem minByUpdated_spec (l : List (String × Session)) (m : String × Session)
    (h : minByUpdated l = some m) :
    m ∈ l ∧ ∀ q ∈ l, m.2.updated_at ≤ q.2.updated_at := by
  cases l with
  | nil => simp [minByUpdated] at h
  | cons p rest =>
    simp only [minByUpdated, Option.some.injEq] at h
    subst h
    exact ⟨foldl_min_mem (fun q => q.2.updated_at) p rest,
           foldl_min_le (fun q => q.2.updated_at) p rest⟩

theorem lookup_none_keys {β : Type} (k : String) (l : List (String × β))
    (h : List.lookup k l = none) : ∀ q ∈ l, q.1 ≠ k := by
  induction l with
  | nil => simp
  | cons p rest ih =>
    intro q hq
    simp only [List.lookup] at h
    cases hk : (k == p.1) with
    | true => rw [hk] at h; simp at h
    | false =>
      rw [hk] at h
      rcases List.mem_cons.mp hq with h1 | h1
      · subst h1
        intro hc
        rw [hc] at hk
        simp at hk
      · exact ih h q h1

theorem eraseP_key_gone (l : List (String × Session)) (k : String)
    (hnodup : (l.map Prod.fst).Nodup) :
    ∀ q ∈ l.eraseP (fun p => p.1 == k), q.1 ≠ k := by
  induction l with
  | nil => simp
  | cons p rest ih =>
    have hnodup' := hnodup
    rw [List.map_cons, List.nodup_cons] at hnodup'
    intro q hq
    by_cases hp : p.1 = k
    · rw [List.eraseP_cons_of_pos (by simp [hp])] at hq
      intro hqk
      have hmem : q.1 ∈ rest.map Prod.fst := List.mem_map_of_mem _ hq
      rw [hqk, ← hp] at hmem
      exact hnodup'.1 hmem
    · rw [List.eraseP_cons_of_neg (by simp [hp])] at hq
      rcases List.mem_cons.mp hq with h1 | h1
      · subst h1; exact hp
      · exact ih hnodup'.2 q h1

theorem foldl_and_eq_all (f : α → Bool) (l : List α) (b : Bool) :
    l.foldl (fun acc p => acc && f p) b = (b && l.all f) := by
  induction l generalizing b with
  | nil => simp
  | cons x xs ih => simp [List.all_cons, ih, Bool.and_assoc]

theorem ct_eq_iff (a b : List Char) (h : a.length = b.length) :
    ct_eq a b = true ↔ a = b := by
  unfold ct_eq
  rw [foldl_and_eq_all]
  simp only [Bool.true_and]
  induction a generalizing b with
  | nil =>
    cases b with
    | nil => simp
    | cons y ys => simp at h
  | cons x xs ih =>
    cases b with
    | nil => simp at h
    | cons y ys =>
      simp only [List.length_cons, Nat.succ.injEq] at h
      simp [List.zip_cons_cons, List.all_cons, ih ys h, Bool.and_eq_true,
        beq_iff_eq, List.cons.injEq, and_comm]

theorem take_min_length (xs : List α) (b : Nat) :
    xs.take (min b xs.length) = xs.take b := by
  by_cases hb : b ≤ xs.length
  · rw [min_eq_left hb]
  · rw [min_eq_right (le_of_not_le hb)]
    rw [List.take_length, List.take_of_length_le (le_of_not_le hb)]

/-- The slice `lines[start..stop]` computed by `execute_read`, with
`start = min (offset-1) len` and `stop = min (start+limit) len`, is the
clamped window `drop (offset-1)` then `take limit`. -/
theorem slice_eq_drop_take (l : List α) (a b : Nat) :
    ((l.drop (min a l.length)).take
      (min (min a l.length + b) l.length - min a l.length))
      = (l.drop a).take b := by
  by_cases ha : a ≤ l.length
  · rw [min_eq_left ha]
    have h1 : min (a + b) l.length - a = min b (l.length - a) := by omega
    rw [h1, ← List.length_drop a l, take_min_length]
  · have ha' : l.length ≤ a := le_of_not_le ha
    rw [min_eq_right ha', List.drop_length, List.drop_eq_nil_of_le ha']
    simp

theorem slice_len_eq (l : List α) (a b : Nat) :
    min (min a l.length + b) l.length - min a l.length
      = ((l.drop a).take b).length := by
  rw [List.length_take, List.length_drop]
  omega

@[simp] theorem StepOut.elim_cont {α : Type} (e : String)
    (es : List StreamEvent) (f : String → List StreamEvent → α)
    (g : List StreamEvent → α) :
    StepOut.elim (.cont e es) f g = f e es := rfl

@[simp] theorem StepOut.elim_done {α : Type} (es : List StreamEvent)
    (f : String → List StreamEvent → α) (g : List StreamEvent → α) :
    StepOut.elim (.done es) f g = g es := rfl

theorem processLines_cons (parse : String → Option Json) (etype l : String)
    (rest : List String) :
    processLines parse etype (l :: rest)
      = StepOut.elim (processLine parse etype l)
          (fun etype' evs => evs ++ processLines parse etype' rest)
          (fun evs => evs) := rfl

/-- A line that is not a `data: [DONE]` record never terminates the loop: it
always yields a `.cont` step. -/
theorem processLine_not_done (parse : String → Option Json)
    (etype rawLine : String) (h : isDoneLine rawLine = false) :
    ∃ etype' evs, processLine parse etype rawLine = .cont etype' evs := by
  unfold isDoneLine at h
  by_cases he : (trimStr rawLine).data.isEmpty = true
  · refine ⟨etype, [], ?_⟩
    simp only [processLine]
    rw [if_pos he]
  · simp only [processLine]
    rw [if_neg he]
    cases hev : dropPre (trimStr rawLine) "event: " with
    | some event_type => exact ⟨_, _, rfl⟩
    | none =>
      cases hd : dropPre (trimStr rawLine) "data: " with
      | none => exact ⟨_, _, rfl⟩
      | some d =>
        rw [hd] at h
        have hne : ¬ (trimStr d = "[DONE]") := by simpa using h
        show ∃ etype' evs,
          (if trimStr d = "[DONE]" then StepOut.done [.MessageStop]
           else
             match parse (trimStr d) with
             | some json =>
               match translateEvent etype json with
               | some ev => StepOut.cont etype [ev]
               | none => StepOut.cont etype []
             | none => StepOut.cont etype []) = StepOut.cont etype' evs
        rw [if_neg hne]
        cases parse (trimStr d) with
        | none => exact ⟨_, _, rfl⟩
        | some json =>
          show ∃ etype' evs,
            (match translateEvent etype json with
             | some ev => StepOut.cont etype [ev]
             | none => StepOut.cont etype []) = StepOut.cont etype' evs
          cases translateEvent etype json with
          | none => exact ⟨_, _, rfl⟩
          | some ev => exact ⟨_, _, rfl⟩

theorem isPrefixOf_rfl (l : List Char) : l.isPrefixOf l = true := by
  induction l with
  | nil => rfl
  | cons c t ih => simp [List.isPrefixOf, ih]

theorem containsSub_append_right (a b : List Char) :
    containsSub (a ++ b) b = true := by
  induction a with
  | nil =>
    cases b with
    | nil => rfl
    | cons c t => simp [containsSub, isPrefixOf_rfl]
  | cons c t ih =>
    simp [containsSub, ih]

/-! ## Claim theorems -/

/-- Claim C1: `verify_token(a, b)` (via `safe_equal_secret`) returns `true` if
and only if `a == b` exactly; in particular differing lengths yield `false`
and equal length with differing content yields `false`. -/
theorem verify_token_iff_eq (a b : String) :
    verify_token a b = true ↔ a = b := by
  unfold verify_token safe_equal_secret
  show (if (a.data.length != b.data.length) = true then false
        else ct_eq a.data b.data) = true ↔ a = b
  by_cases h : a.data.length = b.data.length
  · rw [if_neg (by simp [h]), ct_eq_iff a.data b.data h]
    constructor
    · intro hd; exact String.ext hd
    · intro he; rw [he]
  · rw [if_pos (by simp only [bne_iff_ne, ne_eq]; exact h)]
    constructor
    · intro hc; simp at hc
    · intro hab
      rw [hab] at h
      exact absurd rfl h

/-- Claim C3: tool policy — a name on both the deny and allow lists is allowed;
a name on the deny list only is blocked; a name on neither list is allowed. -/
theorem is_allowed_policy (deny allow : List String) (name : String) :
    (deny.contains name = true → allow.contains name = true →
      ToolRegistry.is_allowed ⟨deny, allow⟩ name = true) ∧
    (deny.contains name = true → allow.contains name = false →
      ToolRegistry.is_allowed ⟨deny, allow⟩ name = false) ∧
    (deny.contains name = false →
      ToolRegistry.is_allowed ⟨deny, allow⟩ name = true) := by
  unfold ToolRegistry.is_allowed
  refine ⟨?_, ?_, ?_⟩ <;> intro h1 <;> simp_all

/-- Claim C9: with a token configured and a non-health path, a request whose
Authorization header does not yield a matching bearer token is rejected with
401 for every query string — even one containing the correct `token=` value —
so the query parameter is consulted only when the header is entirely
absent. -/
theorem auth_header_mismatch_ignores_query (expected path hdr : String)
    (query : Option String)
    (hp1 : path ≠ "/health") (hp2 : path ≠ "/v1/health")
    (hnomatch : ∀ token, extract_bearer_token hdr = some token →
      verify_token token expected = false) :
    auth_middleware (some expected) path (some hdr) query = false ∧
    auth_middleware (some expected) path none query
      = queryTokenCheck expected query := by
  have hppath : ¬ (path = "/health" ∨ path = "/v1/health") := by
    intro hc
    rcases hc with hc | hc
    · exact hp1 hc
    · exact hp2 hc
  constructor
  · show (if path = "/health" ∨ path = "/v1/health" then true
          else match extract_bearer_token hdr with
               | some token => verify_token token expected
               | none => false) = false
    rw [if_neg hppath]
    cases hx : extract_bearer_token hdr with
    | none => rfl
    | some token => exact hnomatch token hx
  · show (if path = "/health" ∨ path = "/v1/health" then true
          else queryTokenCheck expected query) = queryTokenCheck expected query
    rw [if_neg hppath]

/-- Witness for claim C9: token `"secret"` configured, path `/v1/status`,
header `Bearer wrong`, and a query string that carries the correct token —
the request is still rejected, while the same query with no header would be
accepted. -/
theorem auth_header_mismatch_ignores_query_witness :
    queryTokenCheck "secret" (some "token=secret") = true ∧
    (auth_middleware (some "secret") "/v1/status" (some "Bearer wrong")
        (some "token=secret") = false ∧
     auth_middleware (some "secret") "/v1/status" none (some "token=secret")
        = queryTokenCheck "secret" (some "token=secret")) :=
  ⟨by decide,
   auth_header_mismatch_ignores_query "secret" "/v1/status" "Bearer wrong"
     (some "token=secret") (by decide) (by decide)
     (by
       intro token h
       rw [show extract_bearer_token "Bearer wrong" = some "wrong" from rfl] at h
       cases h
       decide)⟩

/-- Claim C10: when the key is already present in the store, `get_or_create`
returns a copy of the stored session and leaves the store completely
unchanged — nothing is inserted, modified or evicted, even at capacity. -/
theorem getOrCreate_existing_unchanged (mgr : SessionManager)
    (key agent_id channel fresh_id : String) (now : Nat) (s : Session)
    (h : List.lookup key mgr.sessions = some s) :
    getOrCreate mgr key agent_id channel fresh_id now = (s, mgr) := by
  unfold getOrCreate
  rw [h]

/-- Witness for claim C10: a one-session store at capacity 1, looked up with its
own key, is returned unchanged. -/
theorem getOrCreate_existing_unchanged_witness :
    getOrCreate ⟨[("k", Session.new "k" "a" "c" "id0" 7)], 1⟩ "k" "a2" "c2" "id1" 9
      = (Session.new "k" "a" "c" "id0" 7,
         ⟨[("k", Session.new "k" "a" "c" "id0" 7)], 1⟩) :=
  getOrCreate_existing_unchanged ⟨[("k", Session.new "k" "a" "c" "id0" 7)], 1⟩
    "k" "a2" "c2" "id1" 9 (Session.new "k" "a" "c" "id0" 7) rfl

/-- Counterexample to claim C2: a store with `max_sessions = 0` holds 0 sessions
and is at capacity, yet `get_or_create` on a fresh key leaves 1 session, not
0 — the eviction branch finds nothing to remove and the insert still
happens. -/
theorem getOrCreate_capacity_zero_cex :
    (getOrCreate ⟨[], 0⟩ "k" "a" "c" "id1" 5).2.sessions.length = 1 ∧
    ¬ ((getOrCreate ⟨[], 0⟩ "k" "a" "c" "id1" 5).2.sessions.length = 0) := by
  constructor <;> decide

/-- Claim C2, amended: for every store with pairwise-distinct keys at capacity
`N = max_sessions` with `N ≥ 1`, calling `get_or_create` with an absent key
results in exactly `N` sessions, and the entry removed is one whose
`updated_at` was minimal before the insertion: its key is gone afterwards and
every entry with a different key survives. (The original claim's universal
quantification also covers `N = 0`, where the store ends with 1 session; the
amendment restricts to `N ≥ 1`.) -/
theorem getOrCreate_evicts_oldest (mgr : SessionManager)
    (key agent_id channel fresh_id : String) (now : Nat)
    (hnodup : (mgr.sessions.map Prod.fst).Nodup)
    (hcap : mgr.sessions.length = mgr.max_sessions)
    (hpos : 1 ≤ mgr.max_sessions)
    (habs : List.lookup key mgr.sessions = none) :
    (getOrCreate mgr key agent_id channel fresh_id now).2.sessions.length
      = mgr.max_sessions ∧
    ∃ p ∈ mgr.sessions,
      (∀ q ∈ mgr.sessions, p.2.updated_at ≤ q.2.updated_at) ∧
      (∀ q ∈ (getOrCreate mgr key agent_id channel fresh_id now).2.sessions,
        q.1 ≠ p.1) ∧
      (∀ q ∈ mgr.sessions, q.1 ≠ p.1 →
        q ∈ (getOrCreate mgr key agent_id channel fresh_id now).2.sessions) := by
  have hcapge : mgr.max_sessions ≤ mgr.sessions.length := le_of_eq hcap.symm
  have hne : mgr.sessions ≠ [] := by
    intro h0
    rw [h0] at hcap
    simp at hcap
    omega
  obtain ⟨m, hm⟩ : ∃ m, minByUpdated mgr.sessions = some m := by
    cases hs : mgr.sessions with
    | nil => exact absurd hs hne
    | cons p rest => exact ⟨_, rfl⟩
  obtain ⟨hmem, hmin⟩ := minByUpdated_spec _ m hm
  have hkeys := lookup_none_keys key mgr.sessions habs
  have hkeym : key ≠ m.1 := fun hc => hkeys m hmem hc.symm
  have hev : evictIfFull mgr.sessions mgr.max_sessions
      = mgr.sessions.eraseP (fun p => p.1 == m.1) := by
    unfold evictIfFull
    rw [if_pos hcapge, hm]
  have hgo : (getOrCreate mgr key agent_id channel fresh_id now).2.sessions
      = mgr.sessions.eraseP (fun p => p.1 == m.1)
        ++ [(key, Session.new key agent_id channel fresh_id now)] := by
    unfold getOrCreate
    rw [habs]
    show insertAssoc (evictIfFull mgr.sessions mgr.max_sessions) key
        (Session.new key agent_id channel fresh_id now) = _
    rw [hev]
    have hc : ¬ ((mgr.sessions.eraseP (fun p => p.1 == m.1)).any
        (fun p => p.1 == key) = true) := by
      intro hc
      rw [List.any_eq_true] at hc
      obtain ⟨q, hq, hqk⟩ := hc
      exact hkeys q (List.mem_of_mem_eraseP hq) (eq_of_beq hqk)
    unfold insertAssoc
    rw [if_neg hc]
  have hElen : (mgr.sessions.eraseP (fun p => p.1 == m.1)).length
      = mgr.sessions.length - 1 :=
    List.length_eraseP_of_mem hmem (by simp)
  constructor
  · rw [hgo, List.length_append, hElen]
    simp only [List.length_cons, List.length_nil]
    omega
  · refine ⟨m, hmem, hmin, ?_, ?_⟩
    · intro q hq
      rw [hgo] at hq
      rcases List.mem_append.mp hq with h1 | h1
      · exact eraseP_key_gone mgr.sessions m.1 hnodup q h1
      · simp only [List.mem_singleton] at h1
        rw [h1]
        exact hkeym
    · intro q hqmem hqm
      rw [hgo]
      exact List.mem_append_left _
        ((List.mem_eraseP_of_neg (by simp [hqm])).mpr hqmem)

/-- Witness for **C2 (amended)**: a two-session store at capacity 2 with
`updated_at` values 10 and 5; inserting a third key keeps 2 sessions, and the
entry with `updated_at = 5` is the one evicted. -/
theorem getOrCreate_evicts_oldest_witness :
    (getOrCreate ⟨[("k1", Session.new "k1" "a" "c" "i1" 10),
                   ("k2", Session.new "k2" "a" "c" "i2" 5)], 2⟩
       "k3" "a" "c" "i3" 20).2.sessions.length = 2 ∧
    ∃ p ∈ [("k1", Session.new "k1" "a" "c" "i1" 10),
           ("k2", Session.new "k2" "a" "c" "i2" 5)],
      (∀ q ∈ [("k1", Session.new "k1" "a" "c" "i1" 10),
              ("k2", Session.new "k2" "a" "c" "i2" 5)],
        p.2.updated_at ≤ q.2.updated_at) ∧
      (∀ q ∈ (getOrCreate ⟨[("k1", Session.new "k1" "a" "c" "i1" 10),
                            ("k2", Session.new "k2" "a" "c" "i2" 5)], 2⟩
          "k3" "a" "c" "i3" 20).2.sessions, q.1 ≠ p.1) ∧
      (∀ q ∈ [("k1", Session.new "k1" "a" "c" "i1" 10),
              ("k2", Session.new "k2" "a" "c" "i2" 5)],
        q.1 ≠ p.1 →
        q ∈ (getOrCreate ⟨[("k1", Session.new "k1" "a" "c" "i1" 10),
                           ("k2", Session.new "k2" "a" "c" "i2" 5)], 2⟩
          "k3" "a" "c" "i3" 20).2.sessions) :=
  getOrCreate_evicts_oldest
    ⟨[("k1", Session.new "k1" "a" "c" "i1" 10),
      ("k2", Session.new "k2" "a" "c" "i2" 5)], 2⟩
    "k3" "a" "c" "i3" 20 (by decide) rfl (by decide) rfl

/-- Witness for claim C3 at concrete deny/allow lists. -/
theorem is_allowed_policy_witness :
    ToolRegistry.is_allowed ⟨["a"], ["a"]⟩ "a" = true ∧
    ToolRegistry.is_allowed ⟨["b"], []⟩ "b" = false ∧
    ToolRegistry.is_allowed ⟨["b"], []⟩ "c" = true :=
  ⟨(is_allowed_policy ["a"] ["a"] "a").1 (by decide) (by decide),
   (is_allowed_policy ["b"] [] "b").2.1 (by decide) (by decide),
   (is_allowed_policy ["b"] [] "c").2.2 (by decide)⟩

/-- Claim C4: when the file exists and the (non-empty) `old_string` does not
occur in its content, `execute_edit` returns a `ToolResult` with
`is_error = true` and performs no write: the filesystem is unchanged. -/
theorem execute_edit_absent_no_write (input : Json) (workspace_dir : String)
    (fs : List (String × String)) (fp old content : String)
    (hfp : getStrOr2 input "file_path" "path" = fp)
    (hfpne : fp.data ≠ [])
    (hold : getStrOr2 input "old_string" "oldText" = old)
    (holdne : old.data ≠ [])
    (hread : List.lookup (resolve_path fp workspace_dir) fs = some content)
    (habsent : containsSub content.data old.data = false) :
    (execute_edit input workspace_dir fs).1.is_error = true ∧
    (execute_edit input workspace_dir fs).2 = fs := by
  have hfpe : fp.data.isEmpty = false := by simp [hfpne]
  have holde : old.data.isEmpty = false := by simp [holdne]
  simp [execute_edit, hfp, hold, hfpe, holde, hread, habsent]

/-- Witness for claim C4: editing `f.txt` (content `"hello world"`) with
`old_string = "absent"` errors and leaves the filesystem untouched. -/
theorem execute_edit_absent_no_write_witness :
    (execute_edit
        (Json.obj [("file_path", Json.str "f.txt"),
                   ("old_string", Json.str "absent"),
                   ("new_string", Json.str "x")])
        "/ws" [("/ws/f.txt", "hello world")]).1.is_error = true ∧
    (execute_edit
        (Json.obj [("file_path", Json.str "f.txt"),
                   ("old_string", Json.str "absent"),
                   ("new_string", Json.str "x")])
        "/ws" [("/ws/f.txt", "hello world")]).2
      = [("/ws/f.txt", "hello world")] :=
  execute_edit_absent_no_write _ "/ws" _ "f.txt" "absent" "hello world"
    rfl (by decide) rfl (by decide) rfl (by decide)

/-- Counterexample to claim C5 as universally stated: on a 1-line file with
`offset = 2` and `limit = 2^64 - 1`, the usize sum `start + limit` wraps:
`start = 1` and the wrapped end index is `0 < start`, so `lines[start..end]`
panics (a debug profile panics at the addition on the same input) — the code
returns no window at all, where the claim requires the clamped window with
`total_lines = 1` and `returned_lines = 0`. -/
theorem execute_read_overflow_cex :
    execute_read
        (Json.obj [("file_path", Json.str "f.txt"),
                   ("offset", Json.num 2),
                   ("limit", Json.num 18446744073709551615)])
        "/ws" [("/ws/f.txt", "line1")] = none ∧
    ∀ r : ToolResult,
      ¬ (execute_read
          (Json.obj [("file_path", Json.str "f.txt"),
                     ("offset", Json.num 2),
                     ("limit", Json.num 18446744073709551615)])
          "/ws" [("/ws/f.txt", "line1")] = some r) := by
  refine ⟨rfl, ?_⟩
  intro r h
  rw [show execute_read
      (Json.obj [("file_path", Json.str "f.txt"),
                 ("offset", Json.num 2),
                 ("limit", Json.num 18446744073709551615)])
      "/ws" [("/ws/f.txt", "line1")] = none from rfl] at h
  cases h

/-- Claim C5, amended: `execute_read` on an existing file returns exactly the
window of lines `offset .. offset+limit-1` (1-based, clamped to the file's
length), with `total_lines` the number of lines of the file and
`returned_lines` the number of lines returned, for every offset and limit
whose window arithmetic does not overflow `usize`
(`min (offset-1) L + limit < 2^64`); the extraction hypotheses exhibit the
defaults 1 and 2000 used when `offset`/`limit` are absent (`.getD`). (At
overflowing limits the program panics instead of returning the clamped
window; see the counterexample.) -/
theorem execute_read_window (input : Json) (workspace_dir : String)
    (fs : List (String × String)) (fp content : String) (offset limit : Nat)
    (hfp : getStrOr2 input "file_path" "path" = fp)
    (hfpne : fp.data ≠ [])
    (hoff : ((jsonGet input "offset").bind Json.as_u64).getD 1 = offset)
    (hlim : ((jsonGet input "limit").bind Json.as_u64).getD 2000 = limit)
    (hread : List.lookup (resolve_path fp workspace_dir) fs = some content)
    (hnowrap : min (offset - 1) (rustLines content).length + limit
        < 18446744073709551616) :
    execute_read input workspace_dir fs =
      some
      { content := joinNL (((rustLines content).drop (offset - 1)).take limit),
        is_error := false,
        metadata := [("total_lines",
                        Json.num ((rustLines content).length : Int)),
                     ("returned_lines",
                        Json.num (((((rustLines content).drop (offset - 1)).take
                          limit).length : Nat) : Int))] } := by
  have hfpe : fp.data.isEmpty = false := by simp [hfpne]
  have hmod : (min (offset - 1) (rustLines content).length + limit)
        % 18446744073709551616
      = min (offset - 1) (rustLines content).length + limit :=
    Nat.mod_eq_of_lt hnowrap
  have hnoslice :
      ¬ (min (min (offset - 1) (rustLines content).length + limit)
           (rustLines content).length
         < min (offset - 1) (rustLines content).length) := by
    omega
  rw [← slice_len_eq (rustLines content) (offset - 1) limit,
      ← slice_eq_drop_take (rustLines content) (offset - 1) limit]
  simp [execute_read, hfp, hoff, hlim, hfpe, hread, hmod, hnoslice]

/-- Witness for claim C5 (amended): the 4-line file of end-to-end scenario C
with `offset = 2, limit = 2` yields exactly lines 2–3 with `total_lines = 4`
and `returned_lines = 2`; the same file with `offset`/`limit` absent defaults
to the window 1..2000 and returns all 4 lines. -/
theorem execute_read_window_witness :
    execute_read
        (Json.obj [("file_path", Json.str "notes.txt"),
                   ("offset", Json.num 2), ("limit", Json.num 2)])
        "/ws" [("/ws/notes.txt", "line1\nline2\nline3\nline4")]
      = some { content := "line2\nline3", is_error := false,
               metadata := [("total_lines", Json.num 4),
                            ("returned_lines", Json.num 2)] } ∧
    execute_read
        (Json.obj [("file_path", Json.str "notes.txt")])
        "/ws" [("/ws/notes.txt", "line1\nline2\nline3\nline4")]
      = some { content := "line1\nline2\nline3\nline4", is_error := false,
               metadata := [("total_lines", Json.num 4),
                            ("returned_lines", Json.num 4)] } :=
  ⟨execute_read_window _ "/ws" _ "notes.txt" "line1\nline2\nline3\nline4" 2 2
     rfl (by decide) rfl rfl rfl (by decide),
   execute_read_window _ "/ws" _ "notes.txt" "line1\nline2\nline3\nline4" 1 2000
     rfl (by decide) rfl rfl rfl (by decide)⟩

/-- Claim C6: `complete` classifies the HTTP status exactly as: 401/403 →
authentication error; 429 → rate-limited with `retry_after_ms` the parsed
`retry-after` header value in milliseconds, or 60000 when the header is
absent or unparseable; any other status ≥ 400 → generic API error carrying
status and body; a 2xx status yields a parsed `CompletionResponse` whenever
the body parses as JSON, and otherwise an `Other` error — never an
authentication, rate-limited, or API error. -/
theorem complete_status_classification (status : Nat) (hd : Option String)
    (text : String) (bj : Option Json) :
    ((status = 401 ∨ status = 403) →
       complete_classify status hd text bj
         = .error (.AuthError text)) ∧
    (status = 429 →
       (∀ v, hd.bind parseU64 = some v → v * 1000 < 18446744073709551616 →
          complete_classify status hd text bj
            = .error (.RateLimited (v * 1000))) ∧
       (hd.bind parseU64 = none →
          complete_classify status hd text bj
            = .error (.RateLimited 60000))) ∧
    (400 ≤ status → status ≠ 401 → status ≠ 403 → status ≠ 429 →
       complete_classify status hd text bj
         = .error (.ApiError status text)) ∧
    (200 ≤ status → status < 300 →
       (∀ j, bj = some j →
          ∃ r, complete_classify status hd text bj = Except.ok r) ∧
       (bj = none →
          complete_classify status hd text bj
            = .error (.Other "Failed to parse response"))) := by
  refine ⟨?_, ?_, ?_, ?_⟩
  · rintro (h | h) <;> subst h <;> rfl
  · intro h
    subst h
    constructor
    · intro v hv hlt
      simp [complete_classify, hv, Nat.mod_eq_of_lt hlt]
    · intro hv
      simp [complete_classify, hv]
  · intro h400 h401 h403 h429
    have c1 : (status == 401 || status == 403) = false := by
      simp [h401, h403]
    have c2 : (status == 429) = false := by simp [h429]
    simp [complete_classify, c1, c2, if_pos h400]
  · intro h200 h300
    have h401 : status ≠ 401 := by omega
    have h403 : status ≠ 403 := by omega
    have h429 : status ≠ 429 := by omega
    have c1 : (status == 401 || status == 403) = false := by
      simp [h401, h403]
    have c2 : (status == 429) = false := by simp [h429]
    have c3 : ¬ (400 ≤ status) := by omega
    constructor
    · intro j hj
      subst hj
      have hc : complete_classify status hd text (some j) = parse_response j := by
        simp [complete_classify, c1, c2, c3]
      rw [hc]
      exact ⟨_, rfl⟩
    · intro hj
      subst hj
      simp [complete_classify, c1, c2, c3]

/-- Witness for claim C6: one concrete input per classification branch —
status 401, status 429 with header `"7"` (→ 7000 ms), status 429 without a
header (→ 60000 ms), status 500, status 200 with a JSON body, and status 200
with an unparseable body. -/
theorem complete_status_classification_witness :
    complete_classify 401 none "denied" none
      = .error (.AuthError "denied") ∧
    complete_classify 429 (some "7") "slow" none
      = .error (.RateLimited 7000) ∧
    complete_classify 429 none "slow" none
      = .error (.RateLimited 60000) ∧
    complete_classify 500 none "boom" none
      = .error (.ApiError 500 "boom") ∧
    (∃ r, complete_classify 200 none "ok"
        (some (Json.obj [("id", Json.str "msg_1")])) = Except.ok r) ∧
    complete_classify 200 none "ok" none
      = .error (.Other "Failed to parse response") :=
  ⟨(complete_status_classification 401 none "denied" none).1 (Or.inl rfl),
   ((complete_status_classification 429 (some "7") "slow" none).2.1 rfl).1
     7 rfl (by decide),
   ((complete_status_classification 429 none "slow" none).2.1 rfl).2 rfl,
   (complete_status_classification 500 none "boom" none).2.2.1
     (by decide) (by decide) (by decide) (by decide),
   ((complete_status_classification 200 none "ok"
       (some (Json.obj [("id", Json.str "msg_1")]))).2.2.2
     (by decide) (by decide)).1 _ rfl,
   ((complete_status_classification 200 none "ok" none).2.2.2
     (by decide) (by decide)).2 rfl⟩

/-- Claim C7: when a `data: [DONE]` line is processed at any point of the
stream, the translator emits a message-stop event and then emits no further
events: the stream's events are exactly those of the lines before the
`[DONE]` record followed by `MessageStop`, independent of everything after
it and of the current event type. -/
theorem done_terminates_stream (parse : String → Option Json) (etype : String)
    (pre post : List String) (hpre : ∀ l ∈ pre, isDoneLine l = false) :
    processLines parse etype (pre ++ "data: [DONE]" :: post)
      = processLines parse etype pre ++ [StreamEvent.MessageStop] := by
  induction pre generalizing etype with
  | nil =>
    rw [List.nil_append, processLines_cons]
    have hd : processLine parse etype "data: [DONE]"
        = .done [.MessageStop] := rfl
    rw [hd, StepOut.elim_done]
    rfl
  | cons l rest ih =>
    have hl : isDoneLine l = false := hpre l (List.mem_cons_self _ _)
    have hrest : ∀ x ∈ rest, isDoneLine x = false :=
      fun x hx => hpre x (List.mem_cons_of_mem _ hx)
    obtain ⟨etype', evs, hstep⟩ := processLine_not_done parse etype l hl
    simp only [List.cons_append, processLines_cons, hstep, StepOut.elim_cont]
    rw [ih etype' hrest, List.append_assoc]

/-- Witness for claim C7: a stream whose lines are an `event:` record, then
`data: [DONE]`, then two further records; the emitted events are exactly
`[MessageStop]` — nothing for the lines after the `[DONE]`. -/
theorem done_terminates_stream_witness :
    processLines (fun _ => none) ""
        (["event: message_start"] ++ "data: [DONE]"
          :: ["data: {}", "event: ping"])
      = [StreamEvent.MessageStop] :=
  done_terminates_stream (fun _ => none) "" ["event: message_start"]
    ["data: {}", "event: ping"] (by decide)

/-- Claim C8: a valid frame whose method matches no handler is answered with an
error object of code `-32601` whose message contains the offending method
name, with the request id echoed and no result; a frame that is not valid
JSON is answered with the fixed code `-32700` object carrying no `id`. -/
theorem ws_unknown_method_and_parse_error (state : GatewayStateModel)
    (msg : WsMessage) (hunknown : msg.method.getD "" ∉ knownMethods) :
    (handle_ws_method state msg
       = some { id := msg.id, method := none, params := none, result := none,
                error := some (Json.obj
                  [("code", Json.num (-32601)),
                   ("message", Json.str
                     ("Method not found: " ++ msg.method.getD ""))]) } ∧
     containsSub ("Method not found: " ++ msg.method.getD "").data
       (msg.method.getD "").data = true) ∧
    (handle_text_frame state none
       = some (Json.obj [("error", Json.obj
           [("code", Json.num (-32700)),
            ("message", Json.str "Parse error")])]) ∧
     Json.hasKey (Json.obj [("error", Json.obj
           [("code", Json.num (-32700)),
            ("message", Json.str "Parse error")])]) "id" = false) := by
  simp only [knownMethods, List.mem_cons, List.not_mem_nil, or_false,
    not_or] at hunknown
  obtain ⟨h1, h2, h3, h4, h5⟩ := hunknown
  refine ⟨⟨?_, ?_⟩, rfl, rfl⟩
  · simp only [handle_ws_method]
    rw [if_neg h1, if_neg h2, if_neg h3, if_neg h4, if_neg h5]
  · exact containsSub_append_right ("Method not found: ").data
      (msg.method.getD "").data

/-- Witness for claim C8: a frame with id `"42"` and method `"bogus.method"`
gets the `-32601` error echoing id `"42"`; an unparseable frame gets the
id-less `-32700` object. -/
theorem ws_unknown_method_and_parse_error_witness :
    (handle_ws_method
        ⟨"0.1.0", 5, ["k1"], "claude", "/ws", ⟨[], []⟩, ["Read"]⟩
        ⟨some "42", some "bogus.method", none, none, none⟩
       = some ⟨some "42", none, none, none,
           some (Json.obj
             [("code", Json.num (-32601)),
              ("message", Json.str "Method not found: bogus.method")])⟩ ∧
     containsSub "Method not found: bogus.method".data "bogus.method".data
       = true) ∧
    (handle_text_frame
        ⟨"0.1.0", 5, ["k1"], "claude", "/ws", ⟨[], []⟩, ["Read"]⟩ none
       = some (Json.obj [("error", Json.obj
           [("code", Json.num (-32700)),
            ("message", Json.str "Parse error")])]) ∧
     Json.hasKey (Json.obj [("error", Json.obj
           [("code", Json.num (-32700)),
            ("message", Json.str "Parse error")])]) "id" = false) :=
  ws_unknown_method_and_parse_error
    ⟨"0.1.0", 5, ["k1"], "claude", "/ws", ⟨[], []⟩, ["Read"]⟩
    ⟨some "42", some "bogus.method", none, none, none⟩ (by decide)

end Rustyclaw
